import Mathlib

/-!
# XKT conversion core: shallow embedding and verification

The repository converts IFC models to the XKT binary container via the
`convert2xkt` pipeline (declared in `package.json` and invoked from
`backend/convert_ifc.js`).  The core XKT classes (`XKTModel`, the quantizer,
the edge deriver and the serializer) are not part of the checked-in sources;
only their callers, declarations and repository documentation are.  Following
the specification, those components are modelled here from the spec's words;
the CLI wrapper `backend/convert_ifc.js` is embedded from its actual source.

Floating-point vertex coordinates are modelled as rationals (`ℚ`), machine
integers as `Int`/`Nat` with explicit range reasoning.
-/

namespace XKT

/-- Modelled from the spec: primitive type of a geometry
(triangles/lines/points, spec section 3 "Geometry"). -/
inductive PrimitiveType
  | triangles
  | lines
  | points
deriving DecidableEq, Repr

/-- Modelled from the spec: the raw input of `addGeometry(positions, normals?,
uvs?, indices, primitiveType)` (spec section 4.1).  Positions are a flat list of
coordinates (three per vertex); optional attributes are empty lists when
absent. -/
structure GeometryInput where
  positions : List ℚ
  normals : List ℚ
  uvs : List ℚ
  indices : List Nat
  primitiveType : PrimitiveType
deriving DecidableEq, Repr

/-- Modelled from the spec: the content fingerprint key of the dedup map.  The
spec hashes the byte content of positions, normals, uvs and indices
concatenated with the primitive type, and performs a full content comparison on
hash collision ("not hash-only equality", spec section 4.1); the net map
semantics is therefore keyed by full content, which is what we embed. -/
def fingerprint (g : GeometryInput) :
    List ℚ × List ℚ × List ℚ × List Nat × PrimitiveType :=
  (g.positions, g.normals, g.uvs, g.indices, g.primitiveType)

/-- Modelled from the spec: validity constraints of `addGeometry` (spec section
4.1): non-empty indices, `positions.length` a multiple of 3, and every index
within the vertex bounds of `positions`. -/
def validGeometryInput (g : GeometryInput) : Bool :=
  !g.indices.isEmpty && g.positions.length % 3 == 0 &&
    g.indices.all (fun i => i < g.positions.length / 3)

/-- Modelled from the spec: a 4x4 decode matrix reduced to its per-axis scale
and offset components (the matrix is diagonal scaling plus translation, spec
section 4.2). -/
structure DecodeMatrix where
  sx : ℚ
  sy : ℚ
  sz : ℚ
  tx : ℚ
  ty : ℚ
  tz : ℚ
deriving DecidableEq, Repr

/-- Per-axis scale component of a decode matrix (axis 0/1/2 = x/y/z). -/
def DecodeMatrix.scale (d : DecodeMatrix) : Nat → ℚ
  | 0 => d.sx
  | 1 => d.sy
  | _ => d.sz

/-- Per-axis offset component of a decode matrix (axis 0/1/2 = x/y/z). -/
def DecodeMatrix.offset (d : DecodeMatrix) : Nat → ℚ
  | 0 => d.tx
  | 1 => d.ty
  | _ => d.tz

/-- Modelled from the spec: result of quantization — an Int16 position buffer
plus the 4x4 decode matrix (spec section 4.2). -/
structure QuantizedGeometry where
  qpositions : List ℤ
  decode : DecodeMatrix
deriving DecidableEq, Repr

/-- Modelled from the spec: a stored, deduplicated Geometry in the Scene
Model's geometry table: stable id, content, reference counter, and the
finalization products (quantized buffer, derived edge indices). -/
structure Geometry where
  geometryId : Nat
  input : GeometryInput
  refCount : Nat
  quantized : Option QuantizedGeometry
  edges : Option (List (Nat × Nat))
deriving DecidableEq, Repr

/-- Modelled from the spec: a handle returned by `addGeometry`, carrying the
stored geometry's id and the visible `isShared` flag (spec section 4.1). -/
structure GeometryHandle where
  geometryId : Nat
  isShared : Bool
deriving DecidableEq, Repr

/-- Modelled from the spec: a Mesh — a placement of one Geometry (spec
section 3).  The transform and material are irrelevant to the claims checked
here and are kept as opaque payload fields. -/
structure Mesh where
  meshId : Nat
  geometryId : Nat
  transform : List ℚ
  color : List ℚ
deriving DecidableEq, Repr

/-- Modelled from the spec: an Entity — a named, typed aggregate of meshes
(spec section 3). -/
structure Entity where
  entityId : String
  entityType : String
  meshIds : List Nat
deriving DecidableEq, Repr

/-- Modelled from the spec: a hierarchical MetaObject node (spec section 3). -/
structure MetaObject where
  metaId : String
  metaType : String
  name : String
  parent : Option String
deriving DecidableEq, Repr

/-- Modelled from the spec: `InvalidGeometryError` — malformed input geometry,
local to one `addGeometry` call (spec section 7). -/
structure InvalidGeometryError where
  message : String
deriving DecidableEq, Repr

/-- Modelled from the spec: the default of the `maxIndicesForEdge` edge-guard
configuration; the repository documentation records the default raised to
200000 (`CORRECTIONS` doc, `src/XKTModel/XKTModel.js`). -/
def defaultMaxIndicesForEdge : Nat := 200000

/-- Modelled from the spec: the Scene Model aggregate root (spec section 3):
flat tables of geometries, meshes, entities and metaobjects in creation order,
a finalized flag, and a quantization-run counter (spec section 8 asks finalize
idempotence to be observable "via a call counter"). -/
structure XKTModel where
  geometries : List Geometry
  nextGeometryId : Nat
  meshes : List Mesh
  nextMeshId : Nat
  entities : List Entity
  metaObjects : List MetaObject
  maxIndicesForEdge : Nat
  finalized : Bool
  quantizeRuns : Nat
deriving DecidableEq, Repr

/-- Modelled from the spec: a freshly constructed, empty, open Scene Model. -/
def XKTModel.empty : XKTModel :=
  { geometries := [], nextGeometryId := 0, meshes := [], nextMeshId := 0,
    entities := [], metaObjects := [],
    maxIndicesForEdge := defaultMaxIndicesForEdge,
    finalized := false, quantizeRuns := 0 }

/-- Modelled from the spec: `addGeometry` (spec section 4.1).  Mutation after
finalize is rejected; malformed input is rejected with `InvalidGeometryError`
leaving the model unchanged; otherwise the fingerprint is looked up in the
dedup map — on hit the reference counter of the stored geometry is
incremented and its handle returned, on miss a new Geometry is appended to
the table (creation order) and a fresh handle returned. -/
def addGeometry (m : XKTModel) (g : GeometryInput) :
    XKTModel × Except InvalidGeometryError GeometryHandle :=
  if m.finalized then
    (m, Except.error ⟨"model is finalized"⟩)
  else if ¬ validGeometryInput g then
    (m, Except.error ⟨"invalid geometry"⟩)
  else
    match m.geometries.find? (fun s => decide (fingerprint s.input = fingerprint g)) with
    | some s =>
        ({ m with geometries := m.geometries.map (fun t =>
              if t.geometryId == s.geometryId then
                { t with refCount := t.refCount + 1 }
              else t) },
         Except.ok ⟨s.geometryId, true⟩)
    | none =>
        ({ m with
            geometries := m.geometries ++
              [{ geometryId := m.nextGeometryId, input := g, refCount := 1,
                 quantized := none, edges := none }],
            nextGeometryId := m.nextGeometryId + 1 },
         Except.ok ⟨m.nextGeometryId, false⟩)

/-- Modelled from the spec: `addMesh` appends a mesh referencing a geometry by
id (spec sections 3 and 4.4). -/
def addMesh (m : XKTModel) (geometryId : Nat) (transform color : List ℚ) :
    XKTModel × Nat :=
  let mesh : Mesh :=
    { meshId := m.nextMeshId, geometryId := geometryId,
      transform := transform, color := color }
  ({ m with meshes := m.meshes ++ [mesh], nextMeshId := m.nextMeshId + 1 },
   m.nextMeshId)

/-- Modelled from the spec: `addEntity` appends an entity (creation order,
spec sections 3 and 4.4); entity id uniqueness is checked at finalize time. -/
def addEntity (m : XKTModel) (entityId entityType : String)
    (meshIds : List Nat) : XKTModel :=
  { m with entities := m.entities ++ [⟨entityId, entityType, meshIds⟩] }

/-- Modelled from the spec: `addMetaObject` appends a metadata node. -/
def addMetaObject (m : XKTModel) (mo : MetaObject) : XKTModel :=
  { m with metaObjects := m.metaObjects ++ [mo] }

/-! ## Quantizer (spec section 4.2) -/

/-- Modelled from the spec: the minimum epsilon that the decode scale of a
degenerate bounding-box axis is forced to, to avoid division by zero (spec
section 4.2 "Edge cases"). -/
def collapseEpsilon : ℚ := 1 / 1000000

/-- Modelled from the spec: the coordinate values of one axis (0/1/2 = x/y/z)
of a flat position list, one value per vertex. -/
def axisVals (ps : List ℚ) (a : Nat) : List ℚ :=
  (List.range (ps.length / 3)).map (fun k => ps.getD (3 * k + a) 0)

/-- Modelled from the spec: per-axis lower extent of the local axis-aligned
bounding box. -/
def bboxMin (ps : List ℚ) (a : Nat) : ℚ :=
  match axisVals ps a with
  | [] => 0
  | x :: xs => xs.foldl min x

/-- Modelled from the spec: per-axis upper extent of the local axis-aligned
bounding box. -/
def bboxMax (ps : List ℚ) (a : Nat) : ℚ :=
  match axisVals ps a with
  | [] => 0
  | x :: xs => xs.foldl max x

/-- Modelled from the spec: the per-axis extent used for quantization; a
degenerate axis (`min == max`) is forced to the minimum epsilon (spec section
4.2). -/
def axisRange (mn mx : ℚ) : ℚ :=
  if mn = mx then collapseEpsilon else mx - mn

/-- Modelled from the spec: encode one coordinate into the 16-bit signed range
`[-32768, 32767]` by inverse-transforming relative to the axis extent and
rounding to nearest (spec section 4.2). -/
def quantizeVal (mn mx p : ℚ) : ℤ :=
  round ((p - mn) / axisRange mn mx * 65535) - 32768

/-- Modelled from the spec: decode one quantized coordinate back with the
decode transform `q ↦ offset + q * scale` where `scale = range / 65535` and
`offset = min + 32768 * scale`. -/
def decodeVal (mn mx : ℚ) (q : ℤ) : ℚ :=
  mn + ((q : ℚ) + 32768) * (axisRange mn mx / 65535)

/-- Modelled from the spec: per-axis scale entry of the decode matrix. -/
def axisScale (ps : List ℚ) (a : Nat) : ℚ :=
  axisRange (bboxMin ps a) (bboxMax ps a) / 65535

/-- Modelled from the spec: per-axis offset entry of the decode matrix. -/
def axisOffset (ps : List ℚ) (a : Nat) : ℚ :=
  bboxMin ps a + 32768 * axisScale ps a

/-- Modelled from the spec: the decode matrix of a position list (diagonal
per-axis scale plus translation). -/
def mkDecodeMatrix (ps : List ℚ) : DecodeMatrix :=
  { sx := axisScale ps 0, sy := axisScale ps 1, sz := axisScale ps 2,
    tx := axisOffset ps 0, ty := axisOffset ps 1, tz := axisOffset ps 2 }

/-- Applying the decode matrix to one quantized coordinate on one axis. -/
def applyDecode (d : DecodeMatrix) (a : Nat) (q : ℤ) : ℚ :=
  d.offset a + (q : ℚ) * d.scale a

/-- Modelled from the spec: `quantize(geometry)` — quantize every coordinate
of the flat position list against its axis's bounding-box extent, and produce
the decode matrix (spec section 4.2). -/
def quantize (g : GeometryInput) : QuantizedGeometry :=
  { qpositions := (List.range g.positions.length).map (fun i =>
      quantizeVal (bboxMin g.positions (i % 3)) (bboxMax g.positions (i % 3))
        (g.positions.getD i 0)),
    decode := mkDecodeMatrix g.positions }

/-! ## Edge Deriver (spec section 4.3) -/

/-- Modelled from the spec: severity of a conversion diagnostic. -/
inductive DiagnosticLevel
  | info
  | warning
deriving DecidableEq, Repr

/-- Modelled from the spec: a non-fatal conversion diagnostic. -/
structure Diagnostic where
  level : DiagnosticLevel
  message : String
deriving DecidableEq, Repr

/-- Modelled from the spec: canonicalize an undirected edge as the ordered
pair (min vertex index, max vertex index) (spec section 4.3). -/
def canonEdge (i j : Nat) : Nat × Nat := (min i j, max i j)

/-- Modelled from the spec: all three canonical edges of each consecutive
index triple (one triangle), duplicates included. -/
def triEdges : List Nat → List (Nat × Nat)
  | a :: b :: c :: rest =>
      canonEdge a b :: canonEdge b c :: canonEdge a c :: triEdges rest
  | _ => []

/-- Modelled from the spec: insert an edge into the edge set unless already
present (hash-set dedup step, embedded as a duplicate-free list). -/
def insertEdge (es : List (Nat × Nat)) (e : Nat × Nat) : List (Nat × Nat) :=
  if e ∈ es then es else es ++ [e]

/-- Modelled from the spec: fold every triangle's three canonical edges into
the edge set. -/
def edgeFold : List Nat → List (Nat × Nat) → List (Nat × Nat)
  | a :: b :: c :: rest, acc =>
      edgeFold rest
        (insertEdge (insertEdge (insertEdge acc (canonEdge a b))
          (canonEdge b c)) (canonEdge a c))
  | _, acc => acc

/-- Modelled from the spec: `deriveEdges(geometry, maxIndicesForEdge)` (spec
section 4.3).  Only triangle geometry has derived edges; if the index count
exceeds the guard, edge computation is skipped entirely, returning `none` with
an informational (non-fatal) diagnostic rather than failing. -/
def deriveEdges (g : GeometryInput) (maxIdx : Nat) :
    Option (List (Nat × Nat)) × List Diagnostic :=
  if g.primitiveType ≠ PrimitiveType.triangles then
    (none, [])
  else if maxIdx < g.indices.length then
    (none, [⟨DiagnosticLevel.info,
      "geometry has too many indices for edge calculation"⟩])
  else
    (some (edgeFold g.indices []), [])

/-! ## Finalization and integrity validation (spec sections 4.4 and 7) -/

/-- Modelled from the spec: an integrity issue found during finalize
validation (spec section 7 taxonomy). -/
inductive Issue
  | duplicateEntityId (id : String)
  | missingGeometry (meshId geometryId : Nat)
  | emptyEntity (id : String)
  | cyclicMetadata (id : String)
  | orphanedMetadata (id : String)
  | degenerateBBox (geometryId : Nat)
deriving DecidableEq, Repr

/-- Modelled from the spec: classification of an issue — duplicate entity
ids, dangling mesh→geometry references, empty entities and cyclic metadata
are fatal; orphaned metadata and degenerate bounding boxes are warnings
(spec sections 4.4 and 7). -/
def issueFatal : Issue → Bool
  | Issue.duplicateEntityId _ => true
  | Issue.missingGeometry _ _ => true
  | Issue.emptyEntity _ => true
  | Issue.cyclicMetadata _ => true
  | Issue.orphanedMetadata _ => false
  | Issue.degenerateBBox _ => false

/-- Modelled from the spec: entity id strings that occur more than once in
the entity table (each reported once). -/
def duplicateEntityIds (m : XKTModel) : List String :=
  ((m.entities.map Entity.entityId).filter
    (fun i => 2 ≤ (m.entities.map Entity.entityId).count i)).dedup

/-- Modelled from the spec: whether a metaobject's parent chain reaches a
root within the given fuel (used for the acyclicity check of the metadata
tree). -/
def reachesRoot (ms : List MetaObject) : Nat → Option String → Bool
  | _, none => true
  | 0, some _ => false
  | fuel + 1, some i =>
      match ms.find? (fun mo => mo.metaId == i) with
      | none => true
      | some mo => reachesRoot ms fuel mo.parent

/-- Modelled from the spec: collect, over the whole model and without
stopping at the first finding, every integrity issue: duplicate entity ids,
meshes whose geometry handle does not exist, entities with zero meshes,
cyclic metadata chains, metaobjects referencing no existing entity (orphans),
and geometries with a degenerate bounding box (spec sections 4.4 and 7). -/
def collectIssues (m : XKTModel) : List Issue :=
  (duplicateEntityIds m).map Issue.duplicateEntityId ++
  (m.meshes.filter (fun ms =>
      ¬ m.geometries.any (fun g => g.geometryId == ms.geometryId))).map
    (fun ms => Issue.missingGeometry ms.meshId ms.geometryId) ++
  (m.entities.filter (fun e => e.meshIds.isEmpty)).map
    (fun e => Issue.emptyEntity e.entityId) ++
  (m.metaObjects.filter (fun mo =>
      ¬ reachesRoot m.metaObjects (m.metaObjects.length + 1) (some mo.metaId))).map
    (fun mo => Issue.cyclicMetadata mo.metaId) ++
  (m.metaObjects.filter (fun mo =>
      ¬ m.entities.any (fun e => e.entityId == mo.metaId))).map
    (fun mo => Issue.orphanedMetadata mo.metaId) ++
  (m.geometries.filter (fun g =>
      bboxMin g.input.positions 0 = bboxMax g.input.positions 0 ∨
      bboxMin g.input.positions 1 = bboxMax g.input.positions 1 ∨
      bboxMin g.input.positions 2 = bboxMax g.input.positions 2)).map
    (fun g => Issue.degenerateBBox g.geometryId)

/-- Modelled from the spec: the fatal-class subset of the collected issues. -/
def fatalIssues (m : XKTModel) : List Issue :=
  (collectIssues m).filter issueFatal

/-- Modelled from the spec: the warning-class subset of the collected
issues; warnings are recorded but never block finalize (spec section 7). -/
def warningIssues (m : XKTModel) : List Issue :=
  (collectIssues m).filter (fun i => ¬ issueFatal i)

/-- Modelled from the spec: `ModelIntegrityError`, carrying the full list of
fatal violations found across the whole model (spec section 7). -/
structure ModelIntegrityError where
  issues : List Issue
deriving DecidableEq, Repr

/-- Modelled from the spec: run quantization and edge derivation over one
stored geometry during finalize (spec section 4.4). -/
def finalizeGeometry (maxIdx : Nat) (g : Geometry) : Geometry :=
  { g with quantized := some (quantize g.input),
           edges := (deriveEdges g.input maxIdx).1 }

/-- Modelled from the spec: `finalize()` (spec section 4.4).  A second call on
an already-finalized model is a no-op returning the model unchanged.
Otherwise all integrity issues are collected over the whole model (not
fail-fast); if any fatal issue exists, finalize fails with
`ModelIntegrityError` carrying the full fatal list; otherwise the Quantizer
and Edge Deriver run over every geometry exactly once, the quantization-run
counter is bumped and the model becomes finalized/immutable. -/
def finalize (m : XKTModel) : Except ModelIntegrityError XKTModel :=
  if m.finalized then
    Except.ok m
  else if fatalIssues m ≠ [] then
    Except.error ⟨fatalIssues m⟩
  else
    Except.ok
      { m with
          geometries := m.geometries.map (finalizeGeometry m.maxIndicesForEdge),
          finalized := true,
          quantizeRuns := m.quantizeRuns + 1 }

/-! ## Binary Packer / Serializer (spec section 4.5)

The container layout is modelled at the level the claims speak about: a
fixed-order, length-prefixed byte layout (bytes embedded as `Nat`), with a
manifest recording each section's length so a consumer can locate sections
without decoding the others.  Per-section deflate is modelled as the
deterministic identity ("stored") encoding: determinism and section ordering
are independent of the compressor's choice of blocks. -/

/-- Modelled from the spec: one length-prefixed record inside a section. -/
def encodeChunk (e : List Nat) : List Nat := e.length :: e

/-- Modelled from the spec: a section is its record count followed by the
length-prefixed records, concatenated in order. -/
def encodeSection (entries : List (List Nat)) : List Nat :=
  entries.length :: (entries.map encodeChunk).flatten

/-- Decode `n` length-prefixed records from the byte stream, returning the
records and the remaining bytes. -/
def decodeChunks : Nat → List Nat → Option (List (List Nat) × List Nat)
  | 0, bs => some ([], bs)
  | _ + 1, [] => none
  | n + 1, len :: bs =>
      if bs.length < len then none
      else (decodeChunks n (bs.drop len)).map
        (fun p => ((bs.take len) :: p.1, p.2))

/-- Decode a whole section back into its record list. -/
def decodeSection (bs : List Nat) : Option (List (List Nat)) :=
  match bs with
  | [] => none
  | n :: body => (decodeChunks n body).map Prod.fst

/-- A quantized Int16 value shifted into an unsigned byte-stream code. -/
def int16Byte (z : ℤ) : Nat := (z + 32768).toNat

/-- Modelled from the spec: the serialized record of one geometry — its id,
then its quantized position codes and its index array. -/
def geometryBytes (g : Geometry) : List Nat :=
  g.geometryId ::
    ((g.quantized.map (fun q => q.qpositions.map int16Byte)).getD [] ++
      g.input.indices)

/-- A string as a length-prefixed list of character codes. -/
def strBytes (s : String) : List Nat :=
  s.length :: s.toList.map Char.toNat

/-- Modelled from the spec: the serialized record of one entity — its id
string followed by its mesh references. -/
def entityBytes (e : Entity) : List Nat :=
  strBytes e.entityId ++ e.meshIds

/-- Modelled from the spec: the container format version tag. -/
def xktVersion : Nat := 10

/-- Modelled from the spec: `serialize(finalizedModel)` — version tag, then a
manifest of the two section lengths, then the geometry section (geometries in
creation order) and the entity section (entities in creation order)
(spec section 4.5). -/
def serializeModel (m : XKTModel) : List Nat :=
  xktVersion :: (encodeSection (m.geometries.map geometryBytes)).length ::
    (encodeSection (m.entities.map entityBytes)).length ::
    (encodeSection (m.geometries.map geometryBytes) ++
      encodeSection (m.entities.map entityBytes))

/-- Locate and decode the geometry section of a serialized container using
only the manifest lengths. -/
def geometrySectionChunks (bs : List Nat) : Option (List (List Nat)) :=
  match bs with
  | _v :: glen :: _elen :: rest => decodeSection (rest.take glen)
  | _ => none

/-- Locate and decode the entity section of a serialized container using only
the manifest lengths. -/
def entitySectionChunks (bs : List Nat) : Option (List (List Nat)) :=
  match bs with
  | _v :: glen :: _elen :: rest => decodeSection (rest.drop glen)
  | _ => none

/-! ## The conversion CLI script (`backend/convert_ifc.js`)

This part is embedded from the repository's actual source.  The script's
interaction with the process environment is embedded explicitly: `argv`
(already sliced past the interpreter and script name), the set of paths for
which `fs.existsSync` answers true, the working directory for
`path.resolve`, and whether the `convert2xkt` promise resolves. -/

/-- The process environment seen by `convert_ifc.js`. -/
structure ConvertEnv where
  args : List String
  existingPaths : List String
  cwd : String
  convertSucceeds : Bool
deriving DecidableEq, Repr

/-- `path.dirname`: everything before the final slash, `"."` when there is no
slash. -/
def dirname (p : String) : String :=
  let parts := p.splitOn "/"
  if parts.length ≤ 1 then "." else String.intercalate "/" parts.dropLast

/-- `path.resolve` against the working directory. -/
def resolvePath (cwd p : String) : String :=
  if p.startsWith "/" then p else cwd ++ "/" ++ p

/-- Observable outcome of one run of `convert_ifc.js`: the process exit code,
whether `convert2xkt` was invoked and with which resolved paths, and whether
`fs.mkdirSync` was called and on which directory. -/
structure ScriptResult where
  exitCode : Nat
  convertInvoked : Bool
  convertSource : Option String
  convertOutput : Option String
  mkdirCalled : Option String
deriving DecidableEq, Repr

/-- `backend/convert_ifc.js`, embedded from source: exit 1 when fewer than two
arguments are given; exit 1 when the source IFC file does not exist; otherwise
create the output directory when missing, resolve both paths to absolute, and
invoke `convert2xkt`, exiting 0 when the conversion promise resolves and 1
when it rejects. -/
def runConvertIfc (env : ConvertEnv) : ScriptResult :=
  if env.args.length < 2 then
    { exitCode := 1, convertInvoked := false, convertSource := none,
      convertOutput := none, mkdirCalled := none }
  else
    let sourceIfc := env.args.getD 0 ""
    let outputXkt := env.args.getD 1 ""
    if ¬ env.existingPaths.contains sourceIfc then
      { exitCode := 1, convertInvoked := false, convertSource := none,
        convertOutput := none, mkdirCalled := none }
    else
      let outputDir := dirname outputXkt
      let mk :=
        if env.existingPaths.contains outputDir then none else some outputDir
      { exitCode := if env.convertSucceeds then 0 else 1,
        convertInvoked := true,
        convertSource := some (resolvePath env.cwd sourceIfc),
        convertOutput := some (resolvePath env.cwd outputXkt),
        mkdirCalled := mk }

/-! ## Concrete example data used to exercise the definitions -/

/-- `n` successive `addGeometry` calls with the same input geometry. -/
def addGeometryIter (m : XKTModel) (g : GeometryInput) : Nat → XKTModel
  | 0 => m
  | n + 1 => (addGeometry (addGeometryIter m g n) g).1

/-- A freshly stored geometry-table entry with a given id, content and
reference count (as created by an `addGeometry` miss). -/
def storedGeometry (gid : Nat) (g : GeometryInput) (rc : Nat) : Geometry :=
  { geometryId := gid, input := g, refCount := rc, quantized := none,
    edges := none }

/-- A single triangle in the z = 0 plane (degenerate bounding box on the z
axis, non-degenerate on x and y). -/
def sampleTriangle : GeometryInput :=
  { positions := [0, 0, 0, 1, 0, 0, 0, 1, 0], normals := [], uvs := [],
    indices := [0, 1, 2], primitiveType := PrimitiveType.triangles }

/-- The eight corner positions of the unit cube. -/
def unitCubePositions : List ℚ :=
  [0, 0, 0, 1, 0, 0, 1, 1, 0, 0, 1, 0,
   0, 0, 1, 1, 0, 1, 1, 1, 1, 0, 1, 1]

/-- A 12-triangle triangulation of the unit cube over its 8 shared corner
vertices (two triangles per face sharing the face diagonal). -/
def unitCubeIndices : List Nat :=
  [0, 1, 2, 0, 2, 3, 4, 5, 6, 4, 6, 7, 0, 1, 5, 0, 5, 4,
   1, 2, 6, 1, 6, 5, 2, 3, 7, 2, 7, 6, 3, 0, 4, 3, 4, 7]

/-- The unit cube as an `addGeometry` input. -/
def unitCubeGeometry : GeometryInput :=
  { positions := unitCubePositions, normals := [], uvs := [],
    indices := unitCubeIndices, primitiveType := PrimitiveType.triangles }

/-- The state an empty model reaches after its first `finalize()`. -/
def finalizedEmpty : XKTModel :=
  { XKTModel.empty with finalized := true, quantizeRuns := 1 }

/-- A model with two entities sharing the entity id "A" and a mesh whose
geometry handle 99 does not exist: two distinct fatal integrity
violations. -/
def dupEntityModel : XKTModel :=
  addEntity
    (addEntity (addMesh XKTModel.empty 99 [] []).1 "A" "IfcWall" [0])
    "A" "IfcDoor" [0]

/-- A small populated model: one triangle geometry, one mesh, one entity. -/
def sampleModel : XKTModel :=
  addEntity (addMesh (addGeometry XKTModel.empty sampleTriangle).1 0 [] []).1
    "A" "IfcWall" [0]

/-- `sampleModel` marked finalized (as read back after `finalize()`). -/
def sampleFinalized : XKTModel :=
  { sampleModel with finalized := true }

/-- A CLI environment with two arguments, an existing source file, a missing
output directory and a succeeding conversion. -/
def sampleEnv : ConvertEnv :=
  { args := ["model.ifc", "out/model.xkt"], existingPaths := ["model.ifc"],
    cwd := "/work", convertSucceeds := true }

/-! ## Theorems -/

/-- C9: `addGeometry` rejects malformed input — empty geometry (zero
indices), any index out of the positions array's vertex bounds, or a position
count that is not a multiple of 3 — immediately with `InvalidGeometryError`,
and the rejected call leaves the Scene Model's state unchanged. -/
theorem addGeometry_rejects_invalid (m : XKTModel) (g : GeometryInput)
    (hf : m.finalized = false)
    (hbad : g.indices = [] ∨ (∃ i ∈ g.indices, g.positions.length / 3 ≤ i) ∨
      g.positions.length % 3 ≠ 0) :
    (addGeometry m g).1 = m ∧
      ∃ e : InvalidGeometryError, (addGeometry m g).2 = Except.error e := by
  have hv : validGeometryInput g = false := by
    rcases hbad with h | ⟨i, hi, hle⟩ | h
    · simp [validGeometryInput, h]
    · simp only [validGeometryInput, Bool.and_eq_false_iff]
      right
      rw [List.all_eq_false]
      exact ⟨i, hi, by simpa using Nat.not_lt.mpr hle⟩
    · simp [validGeometryInput, h]
  refine ⟨?_, ⟨"invalid geometry"⟩, ?_⟩ <;> simp [addGeometry, hf, hv]

theorem addGeometry_rejects_invalid_witness :
    (addGeometry XKTModel.empty
      { positions := [1, 2, 3], normals := [], uvs := [], indices := [],
        primitiveType := PrimitiveType.triangles }).1 = XKTModel.empty ∧
    ∃ e : InvalidGeometryError,
      (addGeometry XKTModel.empty
        { positions := [1, 2, 3], normals := [], uvs := [], indices := [],
          primitiveType := PrimitiveType.triangles }).2 = Except.error e :=
  addGeometry_rejects_invalid XKTModel.empty _ rfl (Or.inl rfl)

/-- C6: when a geometry's index count exceeds `maxIndicesForEdge` (default
200000), `deriveEdges` skips edge computation entirely and returns `none`
without raising, emitting only an informational non-fatal diagnostic, and
finalize (the conversion) still succeeds on models free of fatal issues. -/
theorem deriveEdges_guard (g : GeometryInput) (maxIdx : Nat)
    (h : maxIdx < g.indices.length) :
    (deriveEdges g maxIdx).1 = none ∧
    (∀ d ∈ (deriveEdges g maxIdx).2, d.level = DiagnosticLevel.info) ∧
    (g.primitiveType = PrimitiveType.triangles →
      (deriveEdges g maxIdx).2.length = 1) ∧
    defaultMaxIndicesForEdge = 200000 ∧
    (∀ m : XKTModel, m.finalized = false → fatalIssues m = [] →
      ∃ m' : XKTModel, finalize m = Except.ok m') := by
  have hfin : ∀ m : XKTModel, m.finalized = false → fatalIssues m = [] →
      ∃ m' : XKTModel, finalize m = Except.ok m' := by
    intro m hmf hmfat
    exact ⟨{ m with
        geometries := m.geometries.map (finalizeGeometry m.maxIndicesForEdge),
        finalized := true, quantizeRuns := m.quantizeRuns + 1 },
      by simp [finalize, hmf, hmfat]⟩
  by_cases hp : g.primitiveType = PrimitiveType.triangles
  · refine ⟨by simp [deriveEdges, hp, h], ?_, fun _ => ?_, rfl, hfin⟩
    · intro d hd
      simp [deriveEdges, hp, h] at hd
      simp [hd]
    · simp [deriveEdges, hp, h]
  · refine ⟨by simp [deriveEdges, hp], ?_, fun hc => absurd hc hp, rfl, hfin⟩
    intro d hd
    simp [deriveEdges, hp] at hd

theorem deriveEdges_guard_witness :
    (deriveEdges sampleTriangle 2).1 = none ∧
    (∀ d ∈ (deriveEdges sampleTriangle 2).2,
      d.level = DiagnosticLevel.info) ∧
    (sampleTriangle.primitiveType = PrimitiveType.triangles →
      (deriveEdges sampleTriangle 2).2.length = 1) ∧
    defaultMaxIndicesForEdge = 200000 ∧
    (∀ m : XKTModel, m.finalized = false → fatalIssues m = [] →
      ∃ m' : XKTModel, finalize m = Except.ok m') :=
  deriveEdges_guard sampleTriangle 2 (by decide)

/-- C10: `backend/convert_ifc.js` validates before converting: with fewer than
two arguments, or a missing source IFC file, the process exits 1 and
`convert2xkt` is never invoked; when both checks pass it creates the output
directory if missing, invokes `convert2xkt`, and exits 0 on success and 1 on
conversion failure. -/
theorem convertIfc_validation (env : ConvertEnv) :
    (env.args.length < 2 →
      runConvertIfc env = ⟨1, false, none, none, none⟩) ∧
    (2 ≤ env.args.length →
      env.existingPaths.contains (env.args.getD 0 "") = false →
      runConvertIfc env = ⟨1, false, none, none, none⟩) ∧
    (2 ≤ env.args.length →
      env.existingPaths.contains (env.args.getD 0 "") = true →
      (runConvertIfc env).convertInvoked = true ∧
      (runConvertIfc env).exitCode = (if env.convertSucceeds then 0 else 1) ∧
      (runConvertIfc env).mkdirCalled =
        (if env.existingPaths.contains (dirname (env.args.getD 1 "")) then
          none
         else some (dirname (env.args.getD 1 "")))) := by
  refine ⟨fun h1 => by simp [runConvertIfc, h1], fun h1 h2 => ?_,
    fun h1 h2 => ?_⟩
  · have h1' : ¬ env.args.length < 2 := Nat.not_lt.mpr h1
    have h2' : ¬ env.args[0]?.getD "" ∈ env.existingPaths := by
      simpa using h2
    simp [runConvertIfc, h1', h2']
  · have h1' : ¬ env.args.length < 2 := Nat.not_lt.mpr h1
    have h2' : env.args[0]?.getD "" ∈ env.existingPaths := by
      simpa using h2
    refine ⟨?_, ?_, ?_⟩ <;> simp [runConvertIfc, h1', h2']

theorem convertIfc_validation_witness :
    (runConvertIfc sampleEnv).convertInvoked = true ∧
    (runConvertIfc sampleEnv).exitCode =
      (if sampleEnv.convertSucceeds then 0 else 1) ∧
    (runConvertIfc sampleEnv).mkdirCalled =
      (if sampleEnv.existingPaths.contains
          (dirname (sampleEnv.args.getD 1 "")) then none
       else some (dirname (sampleEnv.args.getD 1 ""))) :=
  (convertIfc_validation sampleEnv).2.2 (by decide) (by decide)

/-- C4: `finalize()` is idempotent and one-shot: whenever a call returns a
finalized model, calling `finalize()` again on it is a no-op returning the
very same model (same state, same quantization-run counter, no error). -/
theorem finalize_idempotent (m m' : XKTModel)
    (h : finalize m = Except.ok m') :
    finalize m' = Except.ok m' ∧ m'.finalized = true := by
  by_cases hf : m.finalized
  · have hm : m = m' := by simpa [finalize, hf] using h
    subst hm
    exact ⟨by simp [finalize, hf], hf⟩
  · by_cases hfat : fatalIssues m = []
    · have hm : ({ m with
          geometries := m.geometries.map (finalizeGeometry m.maxIndicesForEdge),
          finalized := true, quantizeRuns := m.quantizeRuns + 1 } : XKTModel)
          = m' := by
        simpa [finalize, hf, hfat] using h
      rw [← hm]
      exact ⟨by simp [finalize], rfl⟩
    · exact absurd h (by simp [finalize, hf, hfat])

theorem finalize_idempotent_witness :
    finalize finalizedEmpty = Except.ok finalizedEmpty ∧
    finalizedEmpty.finalized = true :=
  finalize_idempotent XKTModel.empty finalizedEmpty rfl

/-- C5: finalize on an open model collects integrity issues over the whole
model without stopping at the first finding; if any fatal violation exists
(duplicate entity id, missing geometry reference, ...) it fails with a
`ModelIntegrityError` carrying the full fatal list, while warning-class
issues alone (orphaned metadata, degenerate bounding boxes) never block
finalize. -/
theorem finalize_integrity (m : XKTModel) (hf : m.finalized = false) :
    (fatalIssues m ≠ [] → finalize m = Except.error ⟨fatalIssues m⟩) ∧
    (fatalIssues m = [] → ∃ m' : XKTModel, finalize m = Except.ok m') ∧
    (∀ i ∈ fatalIssues m, issueFatal i = true) ∧
    (∀ i ∈ warningIssues m, issueFatal i = false) := by
  refine ⟨fun hne => by simp [finalize, hf, hne],
    fun he => ⟨{ m with
        geometries := m.geometries.map (finalizeGeometry m.maxIndicesForEdge),
        finalized := true, quantizeRuns := m.quantizeRuns + 1 },
      by simp [finalize, hf, he]⟩, ?_, ?_⟩
  · intro i hi
    exact (List.mem_filter.mp hi).2
  · intro i hi
    have hb := (List.mem_filter.mp hi).2
    simpa using hb

theorem finalize_integrity_witness :
    finalize dupEntityModel = Except.error ⟨fatalIssues dupEntityModel⟩ ∧
    fatalIssues dupEntityModel =
      [Issue.duplicateEntityId "A", Issue.missingGeometry 0 99] :=
  ⟨(finalize_integrity dupEntityModel rfl).1 (by decide), by decide⟩

lemma mem_insertEdge {es : List (Nat × Nat)} {e x : Nat × Nat} :
    x ∈ insertEdge es e ↔ x ∈ es ∨ x = e := by
  unfold insertEdge
  by_cases h : e ∈ es
  · simp only [if_pos h]
    exact ⟨Or.inl, fun hx => hx.elim id (fun hxe => hxe ▸ h)⟩
  · simp [if_neg h, List.mem_append]

lemma insertEdge_nodup {es : List (Nat × Nat)} {e : Nat × Nat}
    (h : es.Nodup) : (insertEdge es e).Nodup := by
  unfold insertEdge
  by_cases he : e ∈ es
  · simpa [if_pos he] using h
  · rw [if_neg he]
    refine List.Nodup.append h (List.nodup_singleton e) ?_
    intro x hx hxe
    simp only [List.mem_singleton] at hxe
    exact he (hxe ▸ hx)

lemma edgeFold_nodup : ∀ (idx : List Nat) (acc : List (Nat × Nat)),
    acc.Nodup → (edgeFold idx acc).Nodup
  | [], _, h => h
  | [_], _, h => h
  | [_, _], _, h => h
  | _ :: _ :: _ :: rest, _, h =>
      edgeFold_nodup rest _
        (insertEdge_nodup (insertEdge_nodup (insertEdge_nodup h)))

lemma mem_edgeFold : ∀ (idx : List Nat) (acc : List (Nat × Nat))
    (x : Nat × Nat), x ∈ edgeFold idx acc ↔ x ∈ acc ∨ x ∈ triEdges idx
  | [], acc, x => by simp [edgeFold, triEdges]
  | [a], acc, x => by simp [edgeFold, triEdges]
  | [a, b], acc, x => by simp [edgeFold, triEdges]
  | a :: b :: c :: rest, acc, x => by
      have ih := mem_edgeFold rest
        (insertEdge (insertEdge (insertEdge acc (canonEdge a b))
          (canonEdge b c)) (canonEdge a c)) x
      have hstep : edgeFold (a :: b :: c :: rest) acc =
          edgeFold rest (insertEdge (insertEdge (insertEdge acc
            (canonEdge a b)) (canonEdge b c)) (canonEdge a c)) := rfl
      rw [hstep, ih]
      simp only [mem_insertEdge, triEdges, List.mem_cons]
      tauto

lemma triEdges_canonical : ∀ (idx : List Nat) (e : Nat × Nat),
    e ∈ triEdges idx → e.1 ≤ e.2
  | [], _, h => by simp [triEdges] at h
  | [_], _, h => by simp [triEdges] at h
  | [_, _], _, h => by simp [triEdges] at h
  | a :: b :: c :: rest, e, h => by
      simp only [triEdges, List.mem_cons] at h
      rcases h with h | h | h | h
      · subst h; exact min_le_max
      · subst h; exact min_le_max
      · subst h; exact min_le_max
      · exact triEdges_canonical rest e h

set_option maxRecDepth 8192 in
/-- C7: for triangle geometry, `deriveEdges` emits each undirected edge
exactly once (the emitted set is duplicate-free, every emitted edge is the
canonical (min, max) pair of a triangle edge, and every triangle edge is
emitted); for the unit cube mesh of 12 triangles it returns exactly 18 unique
undirected edges. -/
theorem deriveEdges_dedup_correct (g : GeometryInput) (maxIdx : Nat)
    (es : List (Nat × Nat)) (h : (deriveEdges g maxIdx).1 = some es) :
    es.Nodup ∧
    (∀ e : Nat × Nat, e ∈ es ↔ e ∈ triEdges g.indices) ∧
    (∀ e ∈ es, e.1 ≤ e.2) ∧
    Option.map List.length
      (deriveEdges unitCubeGeometry defaultMaxIndicesForEdge).1 = some 18 := by
  have hcube : Option.map List.length
      (deriveEdges unitCubeGeometry defaultMaxIndicesForEdge).1 = some 18 := by
    decide
  by_cases hp : g.primitiveType = PrimitiveType.triangles
  · by_cases hn : maxIdx < g.indices.length
    · simp [deriveEdges, hp, hn] at h
    · have hes : es = edgeFold g.indices [] := by
        simp [deriveEdges, hp, hn] at h
        exact h.symm
      subst hes
      refine ⟨edgeFold_nodup _ _ List.nodup_nil, fun e => ?_, fun e he => ?_,
        hcube⟩
      · rw [mem_edgeFold]
        simp
      · refine triEdges_canonical g.indices e ?_
        have hm := (mem_edgeFold g.indices [] e).mp he
        simpa using hm
  · simp [deriveEdges, hp] at h

set_option maxRecDepth 8192 in
theorem deriveEdges_dedup_correct_witness :
    (edgeFold unitCubeIndices []).Nodup ∧
    (∀ e : Nat × Nat, e ∈ edgeFold unitCubeIndices [] ↔
      e ∈ triEdges unitCubeGeometry.indices) ∧
    (∀ e ∈ edgeFold unitCubeIndices [], e.1 ≤ e.2) ∧
    Option.map List.length
      (deriveEdges unitCubeGeometry defaultMaxIndicesForEdge).1 = some 18 :=
  deriveEdges_dedup_correct unitCubeGeometry defaultMaxIndicesForEdge
    (edgeFold unitCubeIndices []) (by decide)

lemma foldl_min_le (x : ℚ) (l : List ℚ) : l.foldl min x ≤ x := by
  induction l generalizing x with
  | nil => exact le_refl x
  | cons y l ih =>
      calc (y :: l).foldl min x = l.foldl min (min x y) := rfl
        _ ≤ min x y := ih _
        _ ≤ x := min_le_left _ _

lemma le_foldl_max (x : ℚ) (l : List ℚ) : x ≤ l.foldl max x := by
  induction l generalizing x with
  | nil => exact le_refl x
  | cons y l ih =>
      calc x ≤ max x y := le_max_left _ _
        _ ≤ l.foldl max (max x y) := ih _
        _ = (y :: l).foldl max x := rfl

lemma bboxMin_le_bboxMax (ps : List ℚ) (a : Nat) :
    bboxMin ps a ≤ bboxMax ps a := by
  unfold bboxMin bboxMax
  cases h : axisVals ps a with
  | nil => exact le_refl 0
  | cons x xs => exact le_trans (foldl_min_le x xs) (le_foldl_max x xs)

lemma axisRange_pos (mn mx : ℚ) (h : mn ≤ mx) : 0 < axisRange mn mx := by
  unfold axisRange
  by_cases heq : mn = mx
  · rw [if_pos heq]
    norm_num [collapseEpsilon]
  · rw [if_neg heq]
    have : mn < mx := lt_of_le_of_ne h heq
    linarith

/-- C8: on a geometry whose bounding box is degenerate on some axis
(min = max), quantization still succeeds: the extent of that axis is forced
to the minimum epsilon, the decode scale of that axis is the (positive)
epsilon-derived scale, and every axis's quantization divisor is strictly
positive — no division by zero occurs anywhere in quantization. -/
theorem quantize_degenerate (g : GeometryInput) (a : Nat) (ha : a < 3)
    (hdeg : bboxMin g.positions a = bboxMax g.positions a) :
    axisRange (bboxMin g.positions a) (bboxMax g.positions a) =
      collapseEpsilon ∧
    (quantize g).decode.scale a = collapseEpsilon / 65535 ∧
    0 < (quantize g).decode.scale a ∧
    (∀ b, b < 3 →
      0 < axisRange (bboxMin g.positions b) (bboxMax g.positions b)) := by
  have hr : axisRange (bboxMin g.positions a) (bboxMax g.positions a) =
      collapseEpsilon := by
    simp [axisRange, hdeg]
  have hscale : (quantize g).decode.scale a = axisScale g.positions a := by
    have h3 : a = 0 ∨ a = 1 ∨ a = 2 := by omega
    rcases h3 with rfl | rfl | rfl <;> rfl
  refine ⟨hr, ?_, ?_,
    fun b _ => axisRange_pos _ _ (bboxMin_le_bboxMax g.positions b)⟩
  · rw [hscale]
    simp [axisScale, hr]
  · rw [hscale]
    unfold axisScale
    rw [hr]
    norm_num [collapseEpsilon]

lemma fingerprint_inj {g₁ g₂ : GeometryInput} :
    fingerprint g₁ = fingerprint g₂ ↔ g₁ = g₂ := by
  constructor
  · intro h
    cases g₁
    cases g₂
    simpa [fingerprint] using h
  · intro h
    rw [h]

lemma find?_fingerprint_none (m : XKTModel) (g : GeometryInput)
    (hnew : ∀ s ∈ m.geometries, s.input ≠ g) :
    m.geometries.find?
      (fun s => decide (fingerprint s.input = fingerprint g)) = none := by
  rw [List.find?_eq_none]
  intro s hs
  simp only [decide_eq_true_eq]
  exact fun hfp => hnew s hs (fingerprint_inj.mp hfp)

lemma addGeometryIter_spec (m : XKTModel) (g : GeometryInput)
    (hf : m.finalized = false) (hv : validGeometryInput g = true)
    (hnew : ∀ s ∈ m.geometries, s.input ≠ g)
    (hid : ∀ s ∈ m.geometries, s.geometryId < m.nextGeometryId) :
    ∀ n : Nat,
      (addGeometryIter m g (n + 1)).geometries =
        m.geometries ++ [storedGeometry m.nextGeometryId g (n + 1)] ∧
      (addGeometryIter m g (n + 1)).finalized = false ∧
      (addGeometry (addGeometryIter m g (n + 1)) g).2 =
        Except.ok ⟨m.nextGeometryId, true⟩ := by
  have hfind0 := find?_fingerprint_none m g hnew
  intro n
  induction n with
  | zero =>
      have h1 : addGeometryIter m g 1 = (addGeometry m g).1 := rfl
      have hred : addGeometry m g = ({ m with
          geometries := m.geometries ++ [storedGeometry m.nextGeometryId g 1],
          nextGeometryId := m.nextGeometryId + 1 },
          Except.ok ⟨m.nextGeometryId, false⟩) := by
        simp [addGeometry, hf, hv, hfind0, storedGeometry]
      refine ⟨by rw [h1, hred], by rw [h1, hred]; exact hf, ?_⟩
      rw [h1, hred]
      have hfind1 : (m.geometries ++
          [storedGeometry m.nextGeometryId g 1]).find?
          (fun s => decide (fingerprint s.input = fingerprint g)) =
          some (storedGeometry m.nextGeometryId g 1) := by
        rw [List.find?_append, hfind0]
        simp [storedGeometry]
      simp [addGeometry, hf, hv, hfind0, hfind1, storedGeometry]
  | succ k ih =>
      obtain ⟨ihg, ihf, ihh⟩ := ih
      have hfind : (addGeometryIter m g (k + 1)).geometries.find?
          (fun s => decide (fingerprint s.input = fingerprint g)) =
          some (storedGeometry m.nextGeometryId g (k + 1)) := by
        rw [ihg, List.find?_append, hfind0]
        simp [storedGeometry]
      have hred : addGeometry (addGeometryIter m g (k + 1)) g =
          ({ addGeometryIter m g (k + 1) with
              geometries := (addGeometryIter m g (k + 1)).geometries.map
                (fun t => if t.geometryId == m.nextGeometryId then
                    { t with refCount := t.refCount + 1 }
                  else t) },
            Except.ok ⟨m.nextGeometryId, true⟩) := by
        simp [addGeometry, ihf, hv, hfind, storedGeometry]
      have h2 : addGeometryIter m g (k + 2) =
          (addGeometry (addGeometryIter m g (k + 1)) g).1 := rfl
      have hmap : (addGeometryIter m g (k + 1)).geometries.map
          (fun t => if t.geometryId == m.nextGeometryId then
              { t with refCount := t.refCount + 1 }
            else t) =
          m.geometries ++ [storedGeometry m.nextGeometryId g (k + 2)] := by
        rw [ihg, List.map_append]
        congr 1
        · conv_rhs => rw [← List.map_id m.geometries]
          apply List.map_congr_left
          intro s hs
          have hne : s.geometryId ≠ m.nextGeometryId :=
            Nat.ne_of_lt (hid s hs)
          simp [hne]
        · simp [storedGeometry]
      constructor
      · rw [h2, hred]
        exact hmap
      · refine ⟨by rw [h2, hred]; exact ihf, ?_⟩
        have hfind2 : (addGeometryIter m g (k + 2)).geometries.find?
            (fun s => decide (fingerprint s.input = fingerprint g)) =
            some (storedGeometry m.nextGeometryId g (k + 2)) := by
          rw [h2, hred]
          show (List.map _ _).find? _ = _
          rw [hmap, List.find?_append, hfind0]
          simp [storedGeometry]
        have hfin2 : (addGeometryIter m g (k + 2)).finalized = false := by
          rw [h2, hred]
          exact ihf
        simp [addGeometry, hfin2, hv, hfind2, storedGeometry]

/-- C1: two `addGeometry` calls with identical content on the same open model
return handles referring to the same single stored Geometry (the first call
stores it, the second is a dedup-map hit that bumps the reference counter and
returns the shared handle), and after `n + 1` such calls the geometry table
holds exactly one new entry whose reference count is `n + 1`, the number of
calls. -/
theorem addGeometry_dedup (m : XKTModel) (g : GeometryInput) (n : Nat)
    (hf : m.finalized = false) (hv : validGeometryInput g = true)
    (hnew : ∀ s ∈ m.geometries, s.input ≠ g)
    (hid : ∀ s ∈ m.geometries, s.geometryId < m.nextGeometryId) :
    (addGeometry m g).2 = Except.ok ⟨m.nextGeometryId, false⟩ ∧
    (addGeometry (addGeometry m g).1 g).2 =
      Except.ok ⟨m.nextGeometryId, true⟩ ∧
    (addGeometryIter m g (n + 1)).geometries =
      m.geometries ++ [storedGeometry m.nextGeometryId g (n + 1)] := by
  have hspec := addGeometryIter_spec m g hf hv hnew hid
  have hfind0 := find?_fingerprint_none m g hnew
  refine ⟨by simp [addGeometry, hf, hv, hfind0], ?_, (hspec n).1⟩
  have h1 : (addGeometry m g).1 = addGeometryIter m g 1 := rfl
  rw [h1]
  exact (hspec 0).2.2

theorem addGeometry_dedup_witness :
    (addGeometry XKTModel.empty sampleTriangle).2 =
      Except.ok ⟨XKTModel.empty.nextGeometryId, false⟩ ∧
    (addGeometry (addGeometry XKTModel.empty sampleTriangle).1
        sampleTriangle).2 =
      Except.ok ⟨XKTModel.empty.nextGeometryId, true⟩ ∧
    (addGeometryIter XKTModel.empty sampleTriangle (2 + 1)).geometries =
      XKTModel.empty.geometries ++
        [storedGeometry XKTModel.empty.nextGeometryId sampleTriangle (2 + 1)] :=
  addGeometry_dedup XKTModel.empty sampleTriangle 2 rfl (by decide)
    (by simp [XKTModel.empty]) (by simp [XKTModel.empty])

lemma applyDecode_mkDecodeMatrix (ps : List ℚ) (a : Nat) (ha : a < 3)
    (q : ℤ) :
    applyDecode (mkDecodeMatrix ps) a q =
      decodeVal (bboxMin ps a) (bboxMax ps a) q := by
  have h3 : a = 0 ∨ a = 1 ∨ a = 2 := by omega
  rcases h3 with rfl | rfl | rfl <;>
    simp only [applyDecode, mkDecodeMatrix, DecodeMatrix.scale,
      DecodeMatrix.offset, axisScale, axisOffset, decodeVal] <;> ring

lemma roundtrip_core (mn mx p : ℚ) (h : mn < mx) :
    |decodeVal mn mx (quantizeVal mn mx p) - p| ≤ (mx - mn) / 65535 := by
  have hne : mn ≠ mx := ne_of_lt h
  have hw : axisRange mn mx = mx - mn := by
    unfold axisRange
    rw [if_neg hne]
  have hw0 : (0 : ℚ) < mx - mn := by linarith
  have hwne : mx - mn ≠ 0 := ne_of_gt hw0
  have hkey : decodeVal mn mx (quantizeVal mn mx p) - p =
      ((round ((p - mn) / (mx - mn) * 65535) : ℚ) -
        (p - mn) / (mx - mn) * 65535) * ((mx - mn) / 65535) := by
    unfold decodeVal quantizeVal
    rw [hw]
    push_cast
    field_simp
    ring
  rw [hkey, abs_mul]
  have h1 : |(round ((p - mn) / (mx - mn) * 65535) : ℚ) -
      (p - mn) / (mx - mn) * 65535| ≤ 1 / 2 := by
    rw [abs_sub_comm]
    exact abs_sub_round _
  have hpos : (0 : ℚ) < (mx - mn) / 65535 := div_pos hw0 (by norm_num)
  rw [abs_of_pos hpos]
  calc |(round ((p - mn) / (mx - mn) * 65535) : ℚ) -
        (p - mn) / (mx - mn) * 65535| * ((mx - mn) / 65535)
      ≤ (1 / 2) * ((mx - mn) / 65535) :=
        mul_le_mul_of_nonneg_right h1 (le_of_lt hpos)
    _ ≤ (mx - mn) / 65535 := by linarith

/-- C2: for every vertex of a geometry whose bounding box is non-degenerate
on an axis, applying the decode matrix produced by `quantize` to that
vertex's quantized Int16 coordinate reconstructs the original coordinate to
within `(max - min) / 65535` on that axis; quantize/decode are pure
functions, hence deterministic. -/
theorem quantize_roundtrip (g : GeometryInput) (v a : Nat) (ha : a < 3)
    (hv : v < g.positions.length / 3)
    (hnd : bboxMin g.positions a < bboxMax g.positions a) :
    |applyDecode (quantize g).decode a
        ((quantize g).qpositions.getD (3 * v + a) 0) -
      g.positions.getD (3 * v + a) 0| ≤
    (bboxMax g.positions a - bboxMin g.positions a) / 65535 := by
  have hi : 3 * v + a < g.positions.length := by omega
  have hmod : (3 * v + a) % 3 = a := by omega
  have hq : (quantize g).qpositions.getD (3 * v + a) 0 =
      quantizeVal (bboxMin g.positions a) (bboxMax g.positions a)
        (g.positions.getD (3 * v + a) 0) := by
    simp [quantize, List.getD_eq_getElem?_getD, List.getElem?_map,
      List.getElem?_range, hi, hmod]
  have hdm : (quantize g).decode = mkDecodeMatrix g.positions := rfl
  rw [hq, hdm, applyDecode_mkDecodeMatrix g.positions a ha]
  exact roundtrip_core _ _ _ hnd

theorem quantize_roundtrip_witness :
    |applyDecode (quantize sampleTriangle).decode 0
        ((quantize sampleTriangle).qpositions.getD (3 * 1 + 0) 0) -
      sampleTriangle.positions.getD (3 * 1 + 0) 0| ≤
    (bboxMax sampleTriangle.positions 0 - bboxMin sampleTriangle.positions 0)
      / 65535 :=
  quantize_roundtrip sampleTriangle 1 0 (by norm_num) (by decide) (by decide)

theorem quantize_degenerate_witness :
    axisRange (bboxMin sampleTriangle.positions 2)
      (bboxMax sampleTriangle.positions 2) = collapseEpsilon ∧
    (quantize sampleTriangle).decode.scale 2 = collapseEpsilon / 65535 ∧
    0 < (quantize sampleTriangle).decode.scale 2 ∧
    (∀ b, b < 3 →
      0 < axisRange (bboxMin sampleTriangle.positions b)
        (bboxMax sampleTriangle.positions b)) :=
  quantize_degenerate sampleTriangle 2 (by norm_num) (by decide)

lemma decodeChunks_encode (entries : List (List Nat)) (rest : List Nat) :
    decodeChunks entries.length ((entries.map encodeChunk).flatten ++ rest) =
      some (entries, rest) := by
  induction entries generalizing rest with
  | nil => simp [decodeChunks]
  | cons e es ih =>
      simp only [List.map_cons, List.flatten_cons, List.length_cons]
      rw [List.append_assoc]
      show decodeChunks (es.length + 1)
        (e.length :: (e ++ ((es.map encodeChunk).flatten ++ rest))) = _
      rw [decodeChunks]
      have hlen : ¬ (e ++ ((es.map encodeChunk).flatten ++ rest)).length <
          e.length := by
        simp
      rw [if_neg hlen, List.take_left, List.drop_left, ih]
      rfl

lemma decodeSection_encode (entries : List (List Nat)) :
    decodeSection (encodeSection entries) = some entries := by
  have h := decodeChunks_encode entries []
  rw [List.append_nil] at h
  simp [encodeSection, decodeSection, h]

lemma geometrySection_serialize (m : XKTModel) :
    geometrySectionChunks (serializeModel m) =
      some (m.geometries.map geometryBytes) := by
  show decodeSection ((encodeSection (m.geometries.map geometryBytes) ++
      encodeSection (m.entities.map entityBytes)).take
      (encodeSection (m.geometries.map geometryBytes)).length) = _
  rw [List.take_left]
  exact decodeSection_encode _

lemma entitySection_serialize (m : XKTModel) :
    entitySectionChunks (serializeModel m) =
      some (m.entities.map entityBytes) := by
  show decodeSection ((encodeSection (m.geometries.map geometryBytes) ++
      encodeSection (m.entities.map entityBytes)).drop
      (encodeSection (m.geometries.map geometryBytes)).length) = _
  rw [List.drop_left]
  exact decodeSection_encode _

/-- C3: serialization is deterministic — serializing the same finalized
model twice yields byte-identical output — and the container's geometry
section holds the geometry records in creation order and its entity section
the entity records in creation order (both recoverable through the manifest
alone), with each geometry record led by its geometry id. -/
theorem serialize_deterministic (m m' : XKTModel) (_hfin : m.finalized = true)
    (heq : m = m') :
    serializeModel m = serializeModel m' ∧
    geometrySectionChunks (serializeModel m) =
      some (m.geometries.map geometryBytes) ∧
    entitySectionChunks (serializeModel m) =
      some (m.entities.map entityBytes) ∧
    (m.geometries.map geometryBytes).map (fun c => c.headD 0) =
      m.geometries.map Geometry.geometryId := by
  refine ⟨by rw [heq], geometrySection_serialize m,
    entitySection_serialize m, ?_⟩
  rw [List.map_map]
  apply List.map_congr_left
  intro gg _
  rfl

theorem serialize_deterministic_witness :
    serializeModel sampleFinalized = serializeModel sampleFinalized ∧
    geometrySectionChunks (serializeModel sampleFinalized) =
      some (sampleFinalized.geometries.map geometryBytes) ∧
    entitySectionChunks (serializeModel sampleFinalized) =
      some (sampleFinalized.entities.map entityBytes) ∧
    (sampleFinalized.geometries.map geometryBytes).map (fun c => c.headD 0) =
      sampleFinalized.geometries.map Geometry.geometryId :=
  serialize_deterministic sampleFinalized sampleFinalized rfl rfl

end XKT
